import Mathlib

/-!
Verification of the `rl2020` revocation-list package (RevocationList2020).

The Go source (`rl2020.go`) is shallowly embedded: bytes are `Nat` values
(kept below 256 by hypotheses mirroring the `uint8` type), a `bitSet` is a
`List Nat`, fallible functions return `Except String`/`Option String`, and
methods with a pointer receiver return the updated registry explicitly.
The external Go standard-library collaborators (`compress/zlib`,
`encoding/base64`, `encoding/json`, `strings.TrimSpace`) are modelled from
their documented contracts; the repository's own code is translated
statement by statement.
-/

/-- Predicate: every entry of the list fits in a byte (`uint8` in Go). -/
def allBytes (l : List Nat) : Prop := ∀ x ∈ l, x < 256

instance (l : List Nat) : Decidable (allBytes l) :=
  inferInstanceAs (Decidable (∀ x ∈ l, x < 256))

/-- Go type `bitSet []uint8`. -/
abbrev bitSet := List Nat

/-- Go `newBitSet(kbSize int)`: `make([]uint8, kbSize*1024)` (all zero). -/
def newBitSet (kbSize : Nat) : bitSet := List.replicate (kbSize * 1024) 0

/-- Go `(bs bitSet) getBit(index int) bool`:
`pos := index / 8; j := index % 8; return (bs[pos] & (1 << j)) != 0`.
Out-of-range access panics in Go (callers validate first); modelled with
default byte 0. -/
def bitSet.getBit (bs : bitSet) (index : Nat) : Bool :=
  let pos := index / 8
  let j := index % 8
  Nat.testBit (bs.getD pos 0) j

/-- Go `(bs bitSet) setBit(index int, value bool)`:
`pos := index / 8; j := index % 8`; on `value` do `bs[pos] |= 1 << j`,
otherwise `bs[pos] &= ^(1 << j)` (`^` is complement on `uint8`,
i.e. xor with 255). Out-of-range index panics in Go; modelled as no-op. -/
def bitSet.setBit (bs : bitSet) (index : Nat) (value : Bool) : bitSet :=
  let pos := index / 8
  let j := index % 8
  if value then
    bs.set pos (bs.getD pos 0 ||| 2 ^ j)
  else
    bs.set pos (bs.getD pos 0 &&& (255 ^^^ 2 ^ j))

/-- Go `(bs bitSet) len() int`: `8 * len(bs)`, the capacity in bits. -/
def bitSet.len (bs : bitSet) : Nat := 8 * bs.length

/-- Go `(bs bitSet) size() int`: `len(bs) / 1024`, the size in KB. -/
def bitSet.size (bs : bitSet) : Nat := bs.length / 1024

/-! ### Model of the external `compress/zlib` stream

`pack` runs `zlib.NewWriter` (default settings) over the bitmap and `unpack`
reads it back with `zlib.NewReader`.  The zlib container is modelled
concretely: a 2-byte header `0x78 0x9c`, a DEFLATE body (modelled with
stored blocks, which is one of the valid encodings; all theorems treat the
body as opaque), and the big-endian Adler-32 checksum of the payload. -/

/-- Adler-32 checksum (RFC 1950): `a` starts at 1, `b` at 0, both mod 65521;
result is `b * 65536 + a`. -/
def adler32 (data : List Nat) : Nat :=
  let ab := data.foldl
    (fun ab x => ((ab.1 + x) % 65521, (ab.2 + (ab.1 + x) % 65521) % 65521))
    (1, 0)
  ab.2 * 65536 + ab.1

/-- Big-endian 4-byte serialization of the Adler-32 checksum. -/
def adlerBytes (data : List Nat) : List Nat :=
  [adler32 data / 16777216 % 256, adler32 data / 65536 % 256,
   adler32 data / 256 % 256, adler32 data % 256]

/-- DEFLATE stored ("type 00") blocks: each block is a final-flag byte,
`LEN` (little endian, at most 65535), `NLEN = LEN xor 0xffff`, then the raw
bytes.  Models the compressed body produced by the external compressor. -/
def storedBlocks (data : List Nat) : List Nat :=
  if h : data.length ≤ 65535 then
    1 :: data.length % 256 :: data.length / 256 ::
      (65535 - data.length) % 256 :: (65535 - data.length) / 256 :: data
  else
    0 :: 255 :: 255 :: 0 :: 0 ::
      (data.take 65535 ++ storedBlocks (data.drop 65535))
termination_by data.length
decreasing_by simp [List.length_drop]; omega

/-- The zlib stream for `data`: header `0x78 0x9c` (CM=8, 32K window,
default-level flag, check bits making the header divisible by 31), DEFLATE
body, Adler-32 trailer. -/
def zlibCompress (data : List Nat) : List Nat :=
  120 :: 156 :: (storedBlocks data ++ adlerBytes data)

/-- Inverse of `storedBlocks`: parse stored DEFLATE blocks.  Only reachable
through a read on an un-closed reader, which the repository code never
performs. -/
def inflateBlocks (b : List Nat) : Except String (List Nat × List Nat) :=
  match b with
  | bfinal :: l1 :: l2 :: n1 :: n2 :: rest =>
    let len := l1 + 256 * l2
    if n1 + 256 * n2 ≠ 65535 - len then .error "flate: corrupt input"
    else if rest.length < len then .error "unexpected EOF"
    else if bfinal % 2 = 1 then .ok (rest.take len, rest.drop len)
    else
      match inflateBlocks (rest.drop len) with
      | .ok (tail, left) => .ok (rest.take len ++ tail, left)
      | .error e => .error e
  | _ => .error "unexpected EOF"
termination_by b.length
decreasing_by simp [List.length_drop]; omega

/-- Decompress a zlib body (after the 2-byte header): parse the stored
blocks and check the Adler-32 trailer. -/
def inflate (b : List Nat) : Except String (List Nat) :=
  match inflateBlocks b with
  | .error e => .error e
  | .ok (out, left) =>
    if left = adlerBytes out then .ok out else .error "zlib: invalid checksum"

/-- State of Go's `zlib.Reader`: the unread compressed remainder and the
sticky error field `z.err` (`some "EOF"` models `io.EOF`). -/
structure ZReader where
  rest : List Nat
  rerr : Option String
deriving Repr, DecidableEq

/-- Go `zlib.NewReader`: reads the 2-byte header, failing unless the
compression method is 8 (`b0 & 0x0f == 8`) and the header checksum is
divisible by 31; a preset-dictionary flag (`b1 & 0x20`) fails because no
dictionary is supplied.  On success the reader starts with no error. -/
def zlibNewReader (b : List Nat) : Except String ZReader :=
  match b with
  | b0 :: b1 :: rest =>
    if b0 % 16 = 8 ∧ (b0 * 256 + b1) % 31 = 0 then
      if b1 / 32 % 2 = 1 then .error "zlib: invalid dictionary"
      else .ok ⟨rest, none⟩
    else .error "zlib: invalid header"
  | _ => .error "unexpected EOF"

/-- Go `(z *zlib.reader) Close()`: if `z.err` is set and is not `io.EOF`,
return it and leave the state; otherwise set `z.err = io.EOF` and return
nil.  Returned as (result, new state). -/
def ZReader.close (z : ZReader) : Option String × ZReader :=
  match z.rerr with
  | some e => if e = "EOF" then (none, { z with rerr := some "EOF" }) else (some e, z)
  | none => (none, { z with rerr := some "EOF" })

/-- Go `io.ReadAll` on a `zlib.Reader`: `Read` first consults the sticky
error (`io.EOF` ends the read loop successfully with the bytes gathered so
far — none here, since the error is checked before any decompression);
with no sticky error the stream is drained to its end. -/
def ZReader.readAll (z : ZReader) : Except String (List Nat) :=
  match z.rerr with
  | some e => if e = "EOF" then .ok [] else .error e
  | none => inflate z.rest

/-! ### Model of the external `encoding/base64` standard encoding -/

/-- The RFC 4648 standard base64 alphabet. -/
def b64Alphabet : List Char :=
  ['A','B','C','D','E','F','G','H','I','J','K','L','M','N','O','P',
   'Q','R','S','T','U','V','W','X','Y','Z',
   'a','b','c','d','e','f','g','h','i','j','k','l','m','n','o','p',
   'q','r','s','t','u','v','w','x','y','z',
   '0','1','2','3','4','5','6','7','8','9','+','/']

/-- Character for a 6-bit value. -/
def b64Char (n : Nat) : Char := b64Alphabet.getD n '?'

/-- Index of a character in the alphabet, `none` when absent. -/
def b64Index (c : Char) : Option Nat :=
  let i := b64Alphabet.indexOf c
  if i < b64Alphabet.length then some i else none

/-- `base64.StdEncoding` encoding: 3 input bytes become 4 characters; a
final 1- or 2-byte group is padded with `=`. -/
def b64EncodeChunks : List Nat → List Char
  | a :: b :: c :: rest =>
    b64Char (a / 4) :: b64Char (a % 4 * 16 + b / 16) ::
      b64Char (b % 16 * 4 + c / 64) :: b64Char (c % 64) :: b64EncodeChunks rest
  | [a, b] => [b64Char (a / 4), b64Char (a % 4 * 16 + b / 16), b64Char (b % 16 * 4), '=']
  | [a] => [b64Char (a / 4), b64Char (a % 4 * 16), '=', '=']
  | [] => []

/-- `base64.StdEncoding` decoding: input must be a sequence of 4-character
groups; `=` padding is legal only at the very end.  (Go's standard,
non-strict decoder does not reject non-zero trailing bits.) -/
def b64DecodeChunks : List Char → Except String (List Nat)
  | [] => .ok []
  | c1 :: c2 :: c3 :: c4 :: rest =>
    match b64Index c1, b64Index c2 with
    | some n1, some n2 =>
      if c3 = '=' then
        if c4 = '=' then
          if rest = [] then .ok [n1 * 4 + n2 / 16]
          else .error "base64: illegal data"
        else .error "base64: illegal data"
      else
        match b64Index c3 with
        | some n3 =>
          if c4 = '=' then
            if rest = [] then .ok [n1 * 4 + n2 / 16, n2 % 16 * 16 + n3 / 4]
            else .error "base64: illegal data"
          else
            match b64Index c4 with
            | some n4 =>
              match b64DecodeChunks rest with
              | .ok tail =>
                .ok ((n1 * 4 + n2 / 16) :: (n2 % 16 * 16 + n3 / 4) :: (n3 % 4 * 64 + n4) :: tail)
              | .error e => .error e
            | none => .error "base64: illegal data"
        | none => .error "base64: illegal data"
    | _, _ => .error "base64: illegal data"
  | _ => .error "base64: illegal data"

/-- Go `base64.StdEncoding.EncodeToString`. -/
def base64Encode (bs : List Nat) : String := ⟨b64EncodeChunks bs⟩

/-- Go `base64.StdEncoding.DecodeString`. -/
def base64Decode (s : String) : Except String (List Nat) := b64DecodeChunks s.data

/-! ### `pack` and `unpack` (rl2020.go lines 218–247) -/

/-- The string produced by `pack`: base64 of the zlib stream. -/
def packStr (set : bitSet) : String := base64Encode (zlibCompress set)

/-- Go `pack(set bitSet) (string, error)`: compress with zlib into a
`bytes.Buffer`, then base64-encode.  Writing to an in-memory buffer cannot
fail, so the error branches are never taken. -/
def pack (set : bitSet) : Except String String := .ok (packStr set)

/-- Go `unpack(s string) (bitSet, error)`: base64-decode, open a zlib
reader on the bytes, `Close` the reader, then `io.ReadAll` it — in exactly
that order, as the source does. -/
def unpack (s : String) : Except String bitSet :=
  match base64Decode s with
  | .error e => .error e
  | .ok b =>
    match zlibNewReader b with
    | .error e => .error e
    | .ok zr =>
      match zr.close with
      | (some e, _) => .error e
      | (none, zr2) => zr2.readAll

/-! ### The registry (rl2020.go lines 13–186) -/

/-- Go constant `maxBitSetSize = 128`. -/
def maxBitSetSize : Int := 128

/-- Go constant `minBitSetSize = 16`. -/
def minBitSetSize : Int := 16

/-- Go constant `TypeRevocationList2020`. -/
def TypeRevocationList2020 : String := "RevocationList2020"

/-- Go constant `TypeRevocationList2020Status` (note the lowercase `s`). -/
def TypeRevocationList2020Status : String := "RevocationList2020status"

/-- Go constant `Revoke = true`. -/
def RevokeAction : Bool := true

/-- Go constant `Reset = false`. -/
def ResetAction : Bool := false

/-- Model of Go's `strings.TrimSpace(s) == ""`: every character of `s` is
Unicode white space (the Latin-1 cases of `unicode.IsSpace`). -/
def goBlank (s : String) : Bool :=
  s.data.all fun c =>
    c = ' ' ∨ c = '\t' ∨ c = '\n' ∨ c = '\x0b' ∨ c = '\x0c' ∨ c = '\r' ∨
    c = '\x85' ∨ c = '\xa0'

/-- Go struct `CredentialStatusJSON` (the only implementation of the
`CredentialStatus` interface; the interface is consumed purely through the
two accessors below, so a record of the four fields models any
implementation).  `typ` stands for the Go field `Type`. -/
structure CredentialStatus where
  ID : String
  typ : String
  revocationListIndex : Int
  revocationListCredential : String
deriving Repr, DecidableEq

/-- Go `(cs CredentialStatusJSON) Coordinates()`: the revocation list id
and the index within the list. -/
def CredentialStatus.Coordinates (cs : CredentialStatus) : String × Int :=
  (cs.revocationListCredential, cs.revocationListIndex)

/-- Go `(cs CredentialStatusJSON) TypeDef()`: the status own id and type. -/
def CredentialStatus.TypeDef (cs : CredentialStatus) : String × String :=
  (cs.ID, cs.typ)

/-- Go `NewCredentialStatus(rlCredential string, rlIndex int)`
(`fmt.Sprint(rlCredential, "/", rlIndex)` concatenates them). -/
def NewCredentialStatus (rlCredential : String) (rlIndex : Int) : CredentialStatus :=
  { ID := rlCredential ++ "/" ++ toString rlIndex
    typ := TypeRevocationList2020Status
    revocationListIndex := rlIndex
    revocationListCredential := rlCredential }

/-- Go struct `RevocationList2020`; `typ` stands for the Go field `Type`.
The `bitSet` field is tagged `json:"-"` in Go and is never serialized. -/
structure RevocationList2020 where
  ID : String
  typ : String
  EncodedList : String
  bitSet : bitSet
deriving Repr, DecidableEq

/-- The JSON document for a registry as produced by `json.Marshal`
(fields `id`, `type`, `encodedList`; the bitmap is excluded by its
`json:"-"` tag).  `json.Unmarshal`'s structural parsing of the byte text
is outside the model: a document is consumed already split into its three
string fields. -/
structure RLDoc where
  id : String
  typ : String
  encodedList : String
deriving Repr, DecidableEq

/-- Go `NewRevocationList(id string, kbSize int)` (lines 72–89). -/
def NewRevocationList (id : String) (kbSize : Int) : Except String RevocationList2020 :=
  if kbSize > maxBitSetSize ∨ kbSize < minBitSetSize then
    .error ("size must be between " ++ toString minBitSetSize ++ " and " ++
      toString maxBitSetSize ++ ", got " ++ toString kbSize)
  else
    let bs := newBitSet kbSize.toNat
    match pack bs with
    | .error e => .error e
    | .ok ebs =>
      .ok { ID := id, typ := TypeRevocationList2020, EncodedList := ebs, bitSet := bs }

/-- Go `(rl RevocationList2020) Capacity()`: bits handled by the list. -/
def RevocationList2020.Capacity (rl : RevocationList2020) : Nat :=
  bitSet.len rl.bitSet

/-- Go `(rl RevocationList2020) Size()`: size in KB. -/
def RevocationList2020.Size (rl : RevocationList2020) : Nat :=
  bitSet.size rl.bitSet

/-- Go `NewRevocationListFromJSON(data []byte)` (lines 92–114): check the
id is not blank, check the type tag, `unpack` the encoded list, then check
the decoded size is within bounds. -/
def NewRevocationListFromJSON (d : RLDoc) : Except String RevocationList2020 :=
  if goBlank d.id then .error "revocation list has no ID"
  else if d.typ ≠ TypeRevocationList2020 then
    .error ("unsupported type " ++ d.typ ++ ", expected " ++ TypeRevocationList2020)
  else
    match unpack d.encodedList with
    | .error e => .error e
    | .ok bs =>
      let rl : RevocationList2020 :=
        { ID := d.id, typ := d.typ, EncodedList := d.encodedList, bitSet := bs }
      if (rl.Size : Int) > maxBitSetSize ∨ (rl.Size : Int) < minBitSetSize then
        .error ("size must be between " ++ toString minBitSetSize ++ " and " ++
          toString maxBitSetSize ++ ", got " ++ toString rl.Size)
      else .ok rl

/-- First index of the list falling outside `[0, cap)`, scanning left to
right exactly as the validation loop of `Update` does. -/
def firstBadIndex (cap : Nat) : List Int → Option Int
  | [] => none
  | i :: rest => if i < 0 ∨ (cap : Int) ≤ i then some i else firstBadIndex cap rest

/-- Go `(rl *RevocationList2020) Update(action bool, indexes ...int)`
(lines 127–139): a first pass validates every index (returning the range
error at the first bad one, with nothing mutated), a second pass sets the
bits, then the encoded list is recomputed with one `pack`.  Returned as
(error, state of the receiver after the call). -/
def RevocationList2020.Update (rl : RevocationList2020) (action : Bool)
    (indexes : List Int) : Option String × RevocationList2020 :=
  match firstBadIndex rl.Capacity indexes with
  | some i =>
    (some ("credential index out of range 0-" ++ toString rl.Capacity ++ ": " ++
      toString i), rl)
  | none =>
    let bs := indexes.foldl (fun b i => bitSet.setBit b i.toNat action) rl.bitSet
    match pack bs with
    | .ok ebs => (none, { rl with bitSet := bs, EncodedList := ebs })
    | .error e => (some e, { rl with bitSet := bs, EncodedList := "" })

/-- Go `(rl *RevocationList2020) Revoke(credentials ...int)`:
`Update(Revoke, ...)`. -/
def RevocationList2020.Revoke (rl : RevocationList2020) (credentials : List Int) :
    Option String × RevocationList2020 :=
  rl.Update RevokeAction credentials

/-- Go `(rl *RevocationList2020) Reset(credentials ...int)`:
`Update(Reset, ...)`. -/
def RevocationList2020.Reset (rl : RevocationList2020) (credentials : List Int) :
    Option String × RevocationList2020 :=
  rl.Update ResetAction credentials

/-- Go `(rl RevocationList2020) IsRevoked(status CredentialStatus)`
(lines 158–181), with the receiver state after the call made explicit
(the method has a value receiver and assigns no field). -/
def RevocationList2020.IsRevoked (rl : RevocationList2020) (status : CredentialStatus) :
    Except String Bool × RevocationList2020 :=
  let csID := status.TypeDef.1
  let csType := status.TypeDef.2
  if goBlank csID then (.error "credential status ID is empty", rl)
  else if csType ≠ TypeRevocationList2020Status then
    (.error ("unsupported type " ++ rl.typ ++ ", expected " ++
      TypeRevocationList2020Status), rl)
  else
    let list := status.Coordinates.1
    let index := status.Coordinates.2
    if list ≠ rl.ID then
      (.error ("wrong revocation list, expected " ++ rl.ID ++ ", got " ++ list), rl)
    else if index < 0 ∨ (rl.Capacity : Int) ≤ index then
      (.error ("credential index out of range 0-" ++ toString rl.Capacity ++ ": " ++
        list), rl)
    else (.ok (bitSet.getBit rl.bitSet index.toNat), rl)

/-- Go `(rl RevocationList2020) GetBytes()`: `json.Marshal(rl)`, which for
this struct (three string fields, bitmap excluded) always succeeds and
yields the document of the three exported fields. -/
def RevocationList2020.GetBytes (rl : RevocationList2020) : RLDoc :=
  { id := rl.ID, typ := rl.typ, encodedList := rl.EncodedList }

/-- Substring test used to state what an error message does (not) contain. -/
def strContains (hay needle : String) : Bool :=
  hay.data.tails.any fun t => needle.data.isPrefixOf t

/-! ### Helper lemmas: base64 round-trip -/

theorem b64Index_b64Char : ∀ n < 64, b64Index (b64Char n) = some n := by decide

theorem b64Char_ne_pad : ∀ n < 64, b64Char n ≠ '=' := by decide

theorem b64_roundtrip : ∀ bs : List Nat, allBytes bs →
    b64DecodeChunks (b64EncodeChunks bs) = Except.ok bs := by
  intro bs
  induction bs using b64EncodeChunks.induct with
  | case1 a b c rest ih =>
    intro h
    have ha : a < 256 := h a (by simp)
    have hb : b < 256 := h b (by simp)
    have hc : c < 256 := h c (by simp)
    have hrest : allBytes rest := fun x hx => h x (by simp [hx])
    have h1 := b64Index_b64Char (a / 4) (by omega)
    have h2 := b64Index_b64Char (a % 4 * 16 + b / 16) (by omega)
    have h3 := b64Index_b64Char (b % 16 * 4 + c / 64) (by omega)
    have h4 := b64Index_b64Char (c % 64) (by omega)
    have hne3 := b64Char_ne_pad (b % 16 * 4 + c / 64) (by omega)
    have hne4 := b64Char_ne_pad (c % 64) (by omega)
    have e1 : a / 4 * 4 + (a % 4 * 16 + b / 16) / 16 = a := by omega
    have e2 : (a % 4 * 16 + b / 16) % 16 * 16 + (b % 16 * 4 + c / 64) / 4 = b := by omega
    have e3 : (b % 16 * 4 + c / 64) % 4 * 64 + c % 64 = c := by omega
    simp [b64EncodeChunks, b64DecodeChunks, h1, h2, h3, h4, hne3, hne4, ih hrest, e1, e2, e3]
  | case2 a b =>
    intro h
    have ha : a < 256 := h a (by simp)
    have hb : b < 256 := h b (by simp)
    have h1 := b64Index_b64Char (a / 4) (by omega)
    have h2 := b64Index_b64Char (a % 4 * 16 + b / 16) (by omega)
    have h3 := b64Index_b64Char (b % 16 * 4) (by omega)
    have hne3 := b64Char_ne_pad (b % 16 * 4) (by omega)
    have e1 : a / 4 * 4 + (a % 4 * 16 + b / 16) / 16 = a := by omega
    have e2 : (a % 4 * 16 + b / 16) % 16 * 16 + b % 16 * 4 / 4 = b := by omega
    simp [b64EncodeChunks, b64DecodeChunks, h1, h2, h3, hne3, e1, e2]
    omega
  | case3 a =>
    intro h
    have ha : a < 256 := h a (by simp)
    have h1 := b64Index_b64Char (a / 4) (by omega)
    have h2 := b64Index_b64Char (a % 4 * 16) (by omega)
    have e1 : a / 4 * 4 + a % 4 * 16 / 16 = a := by omega
    simp [b64EncodeChunks, b64DecodeChunks, h1, h2, e1]
    omega
  | case4 =>
    intro _
    rfl

/-! ### Helper lemmas: the zlib model and `unpack ∘ pack` -/

theorem allBytes_adlerBytes (data : List Nat) : allBytes (adlerBytes data) := by
  intro x hx
  simp [adlerBytes] at hx
  rcases hx with h | h | h | h <;> omega

theorem allBytes_storedBlocks (data : List Nat) (h : allBytes data) :
    allBytes (storedBlocks data) := by
  induction data using storedBlocks.induct with
  | case1 data hlen =>
    rw [storedBlocks, dif_pos hlen]
    intro x hx
    rcases List.mem_cons.mp hx with rfl | hx
    · omega
    rcases List.mem_cons.mp hx with rfl | hx
    · omega
    rcases List.mem_cons.mp hx with rfl | hx
    · omega
    rcases List.mem_cons.mp hx with rfl | hx
    · omega
    rcases List.mem_cons.mp hx with rfl | hx
    · omega
    exact h x hx
  | case2 data hlen ih =>
    rw [storedBlocks, dif_neg hlen]
    intro x hx
    rcases List.mem_cons.mp hx with rfl | hx
    · omega
    rcases List.mem_cons.mp hx with rfl | hx
    · omega
    rcases List.mem_cons.mp hx with rfl | hx
    · omega
    rcases List.mem_cons.mp hx with rfl | hx
    · omega
    rcases List.mem_cons.mp hx with rfl | hx
    · omega
    rcases List.mem_append.mp hx with hx | hx
    · exact h x (List.take_subset _ _ hx)
    · exact ih (fun y hy => h y (List.drop_subset _ _ hy)) x hx

theorem allBytes_zlibCompress (data : List Nat) (h : allBytes data) :
    allBytes (zlibCompress data) := by
  intro x hx
  unfold zlibCompress at hx
  rcases List.mem_cons.mp hx with rfl | hx
  · omega
  rcases List.mem_cons.mp hx with rfl | hx
  · omega
  rcases List.mem_append.mp hx with hx | hx
  · exact allBytes_storedBlocks data h x hx
  · exact allBytes_adlerBytes data x hx

theorem zlibNewReader_compress (data : List Nat) :
    zlibNewReader (zlibCompress data) =
      .ok ⟨storedBlocks data ++ adlerBytes data, none⟩ := by
  simp [zlibCompress, zlibNewReader]

/-- `Close` on a reader with no sticky error returns nil and marks the
reader `io.EOF`. -/
theorem close_fresh (zr : ZReader) (h : zr.rerr = none) :
    zr.close = (none, ⟨zr.rest, some "EOF"⟩) := by
  cases zr
  simp_all [ZReader.close]

/-- `io.ReadAll` on a reader already marked `io.EOF` yields no bytes. -/
theorem readAll_eof (rest : List Nat) :
    ZReader.readAll ⟨rest, some "EOF"⟩ = .ok [] := by
  simp [ZReader.readAll]

/-- On the success path of `unpack`, the reader was just created (no sticky
error), `Close` succeeds and marks it `io.EOF`, and `io.ReadAll` therefore
returns no bytes at all. -/
theorem unpack_packStr (b : List Nat) (hb : allBytes b) :
    unpack (packStr b) = .ok [] := by
  unfold unpack packStr base64Encode base64Decode
  rw [show (String.mk (b64EncodeChunks (zlibCompress b))).data =
    b64EncodeChunks (zlibCompress b) from rfl]
  rw [b64_roundtrip _ (allBytes_zlibCompress b hb)]
  simp [zlibNewReader_compress, close_fresh, readAll_eof]

theorem zlibNewReader_rerr {b : List Nat} {zr : ZReader}
    (h : zlibNewReader b = .ok zr) : zr.rerr = none := by
  unfold zlibNewReader at h
  match b with
  | [] => simp at h
  | [b0] => simp at h
  | b0 :: b1 :: rest =>
    simp at h
    split at h
    · split at h
      · simp at h
      · simp at h; rw [← h]
    · simp at h

/-- Whatever the input, a successful `unpack` always yields the empty byte
sequence: the zlib reader is closed before `io.ReadAll` drains it. -/
theorem unpack_ok_nil {s : String} {bs : bitSet} (h : unpack s = .ok bs) :
    bs = [] := by
  unfold unpack at h
  split at h
  · simp at h
  · split at h
    · simp at h
    · rename_i b hd zr hr
      rw [close_fresh zr (zlibNewReader_rerr hr)] at h
      split at h
      · rename_i heq
        simp at heq
      · rename_i zr2 heq
        simp at heq
        rw [← heq, readAll_eof] at h
        simp at h
        exact h

/-- A successfully decoded bitmap is always empty (see `unpack_ok_nil`), so
its size-in-KB check `16 ≤ size ≤ 128` can never pass:
`NewRevocationListFromJSON` never returns a registry. -/
theorem fromJSON_no_ok {d : RLDoc} {rl : RevocationList2020}
    (h : NewRevocationListFromJSON d = .ok rl) : False := by
  unfold NewRevocationListFromJSON at h
  split at h
  · simp at h
  · split at h
    · simp at h
    · split at h
      · simp at h
      · rename_i bs hu
        have hnil := unpack_ok_nil hu
        subst hnil
        simp [RevocationList2020.Size, bitSet.size, maxBitSetSize, minBitSetSize] at h

/-- If some member of the list is out of range then the validation scan
finds a first out-of-range member. -/
theorem firstBadIndex_of_mem {cap : Nat} {l : List Int} {i : Int}
    (hmem : i ∈ l) (hbad : i < 0 ∨ (cap : Int) ≤ i) :
    ∃ j ∈ l, (j < 0 ∨ (cap : Int) ≤ j) ∧ firstBadIndex cap l = some j := by
  induction l with
  | nil => simp at hmem
  | cons a rest ih =>
    by_cases hab : a < 0 ∨ (cap : Int) ≤ a
    · exact ⟨a, List.mem_cons_self a rest, hab, by simp [firstBadIndex, hab]⟩
    · rcases List.mem_cons.mp hmem with rfl | hmem'
      · exact absurd hbad hab
      · obtain ⟨j, hj0, hj1, hj2⟩ := ih hmem'
        exact ⟨j, List.mem_cons_of_mem a hj0, hj1, by simp [firstBadIndex, hab, hj2]⟩

/-- C1 (code_bug): the round-trip law `unpack (pack b) = b` FAILS for every
nonempty bitmap.  `unpack` closes the zlib reader before `io.ReadAll`
drains it, so the read loop sees the sticky `io.EOF` at once and `unpack`
succeeds with the empty byte sequence instead of `b`. -/
theorem unpack_pack_loses_bitmap (b : bitSet) (hb : allBytes b) (hne : b ≠ []) :
    pack b = .ok (packStr b) ∧ unpack (packStr b) = .ok [] ∧
      unpack (packStr b) ≠ .ok b := by
  refine ⟨rfl, unpack_packStr b hb, fun hcontra => ?_⟩
  rw [unpack_packStr b hb] at hcontra
  simp at hcontra
  exact hne hcontra

/-- Witness for `unpack_pack_loses_bitmap` at the one-byte bitmap `[1]`. -/
theorem unpack_pack_loses_bitmap_w :
    allBytes [1] ∧ ([1] : bitSet) ≠ [] ∧
      (pack [1] = .ok (packStr [1]) ∧ unpack (packStr [1]) = .ok [] ∧
        unpack (packStr [1]) ≠ .ok [1]) :=
  ⟨by decide, by decide, unpack_pack_loses_bitmap [1] (by decide) (by decide)⟩

theorem allBytes_newBitSet (kb : Nat) : allBytes (newBitSet kb) := by
  intro x hx
  rw [newBitSet] at hx
  have := List.eq_of_mem_replicate hx
  omega

/-- Serializing any registry whose token is the encoding of its own bitmap
and parsing it back fails the size check: the decoded bitmap is empty. -/
theorem fromJSON_pack_doc_fails (b : bitSet) (hb : allBytes b) (id ty : String)
    (hid : goBlank id = false) (hty : ty = TypeRevocationList2020) :
    NewRevocationListFromJSON (RevocationList2020.GetBytes ⟨id, ty, packStr b, b⟩) =
      .error "size must be between 16 and 128, got 0" := by
  subst hty
  unfold NewRevocationListFromJSON RevocationList2020.GetBytes
  dsimp only
  rw [if_neg (by rw [hid]; exact Bool.false_ne_true)]
  rw [if_neg (by decide : ¬ (TypeRevocationList2020 ≠ TypeRevocationList2020))]
  rw [unpack_packStr b hb]
  dsimp only [RevocationList2020.Size, bitSet.size]
  norm_num [minBitSetSize, maxBitSetSize]
  rfl

/-- C2 (code_bug): serialize-then-parse never round-trips.  The registry
freshly created by `NewRevocationList "test-1" 16` serializes (via
`GetBytes`) to a document that `NewRevocationListFromJSON` rejects with a
size error "got 0": the decoded bitmap is empty because `unpack` closes
the zlib reader before reading it.  The claim says the parse succeeds and
preserves `IsRevoked` answers. -/
theorem fromJSON_getBytes_fails :
    NewRevocationList "test-1" 16 =
      .ok ⟨"test-1", TypeRevocationList2020, packStr (newBitSet 16), newBitSet 16⟩ ∧
    NewRevocationListFromJSON
      (RevocationList2020.GetBytes
        ⟨"test-1", TypeRevocationList2020, packStr (newBitSet 16), newBitSet 16⟩) =
      .error "size must be between 16 and 128, got 0" :=
  ⟨rfl, fromJSON_pack_doc_fails (newBitSet 16) (allBytes_newBitSet 16) "test-1"
    TypeRevocationList2020 (by decide) rfl⟩

/-- C3 (confirmed): `Update` validates every index against `[0, Capacity)`
in a first pass, before touching any bit: when some index is negative or
at least the capacity, the call fails with the range error (naming the
capacity bound and the first offending index) and the returned registry —
bitmap and encoded token alike — is exactly the pre-call registry. -/
theorem update_all_or_nothing (rl : RevocationList2020) (action : Bool)
    (indexes : List Int) (i : Int) (hmem : i ∈ indexes)
    (hbad : i < 0 ∨ (rl.Capacity : Int) ≤ i) :
    (rl.Update action indexes).2 = rl ∧
      ∃ j ∈ indexes, (j < 0 ∨ (rl.Capacity : Int) ≤ j) ∧
        (rl.Update action indexes).1 =
          some ("credential index out of range 0-" ++ toString rl.Capacity ++
            ": " ++ toString j) := by
  obtain ⟨j, hj0, hj1, hj2⟩ := firstBadIndex_of_mem hmem hbad
  unfold RevocationList2020.Update
  rw [hj2]
  exact ⟨rfl, j, hj0, hj1, rfl⟩

/-- Witness for `update_all_or_nothing`: a one-byte registry (capacity 8)
and the update `Update(true, [5, 8])`, whose second index is out of range. -/
theorem update_all_or_nothing_w :
    ((8 : Int) ∈ [(5 : Int), 8] ∧
      ((8 : Int) < 0 ∨
        ((RevocationList2020.mk "r" "RevocationList2020" "e" [0]).Capacity : Int) ≤ 8)) ∧
    (((RevocationList2020.mk "r" "RevocationList2020" "e" [0]).Update true [5, 8]).2 =
        RevocationList2020.mk "r" "RevocationList2020" "e" [0] ∧
      ∃ j ∈ [(5 : Int), 8],
        (j < 0 ∨ ((RevocationList2020.mk "r" "RevocationList2020" "e" [0]).Capacity : Int) ≤ j) ∧
        ((RevocationList2020.mk "r" "RevocationList2020" "e" [0]).Update true [5, 8]).1 =
          some ("credential index out of range 0-" ++
            toString (RevocationList2020.mk "r" "RevocationList2020" "e" [0]).Capacity ++
            ": " ++ toString j)) :=
  ⟨⟨by decide, by decide⟩,
    update_all_or_nothing (RevocationList2020.mk "r" "RevocationList2020" "e" [0])
      true [5, 8] 8 (by decide) (by decide)⟩

/-- C10 (confirmed): `IsRevoked` never modifies the registry: on every
path — each of the four validation errors and the success read — the
registry after the call (ID, type tag, encoded token and every bitmap
byte) is exactly the registry before the call. -/
theorem isRevoked_preserves_registry (rl : RevocationList2020) (cs : CredentialStatus) :
    (rl.IsRevoked cs).2 = rl := by
  unfold RevocationList2020.IsRevoked
  dsimp only
  split
  · rfl
  · split
    · rfl
    · split
      · rfl
      · split
        · rfl
        · rfl

/-- Reaching the fourth `IsRevoked` check (nonblank id, right type tag,
right list) with an out-of-range index produces the range error — whose
trailing value is the LIST identifier, as the source writes it. -/
theorem isRevoked_index_error (rl : RevocationList2020) (cs : CredentialStatus)
    (h1 : goBlank cs.ID = false) (h2 : cs.typ = TypeRevocationList2020Status)
    (h3 : cs.revocationListCredential = rl.ID)
    (h4 : cs.revocationListIndex < 0 ∨ (rl.Capacity : Int) ≤ cs.revocationListIndex) :
    rl.IsRevoked cs =
      (.error ("credential index out of range 0-" ++ toString rl.Capacity ++ ": " ++
        cs.revocationListCredential), rl) := by
  unfold RevocationList2020.IsRevoked
  dsimp only [CredentialStatus.TypeDef, CredentialStatus.Coordinates]
  rw [if_neg (by rw [h1]; exact Bool.false_ne_true)]
  rw [if_neg (by rw [h2]; exact fun hc => hc rfl)]
  rw [if_neg (by rw [h3]; exact fun hc => hc rfl)]
  rw [if_pos h4]

/-- C4 (confirmed): `IsRevoked` runs exactly four checks, short-circuiting
in order — (1) blank self-identifier: "empty status id" error; (2) wrong
discriminator tag: "unsupported type" error; (3) wrong owning-registry
identifier: "wrong list" error; (4) index outside [0, Capacity): "index
out of range" error — and when all four pass it returns
`bitSet.getBit` at the index.  The first failing check determines the
error even when later checks would also fail. -/
theorem isRevoked_validation_order (rl : RevocationList2020) (cs : CredentialStatus) :
    (goBlank cs.ID = true →
      rl.IsRevoked cs = (.error "credential status ID is empty", rl)) ∧
    (goBlank cs.ID = false → cs.typ ≠ TypeRevocationList2020Status →
      rl.IsRevoked cs = (.error ("unsupported type " ++ rl.typ ++ ", expected " ++
        TypeRevocationList2020Status), rl)) ∧
    (goBlank cs.ID = false → cs.typ = TypeRevocationList2020Status →
      cs.revocationListCredential ≠ rl.ID →
      rl.IsRevoked cs = (.error ("wrong revocation list, expected " ++ rl.ID ++
        ", got " ++ cs.revocationListCredential), rl)) ∧
    (goBlank cs.ID = false → cs.typ = TypeRevocationList2020Status →
      cs.revocationListCredential = rl.ID →
      (cs.revocationListIndex < 0 ∨ (rl.Capacity : Int) ≤ cs.revocationListIndex) →
      rl.IsRevoked cs = (.error ("credential index out of range 0-" ++
        toString rl.Capacity ++ ": " ++ cs.revocationListCredential), rl)) ∧
    (goBlank cs.ID = false → cs.typ = TypeRevocationList2020Status →
      cs.revocationListCredential = rl.ID →
      0 ≤ cs.revocationListIndex → cs.revocationListIndex < (rl.Capacity : Int) →
      rl.IsRevoked cs = (.ok (bitSet.getBit rl.bitSet cs.revocationListIndex.toNat), rl)) := by
  refine ⟨fun h1 => ?_, fun h1 h2 => ?_, fun h1 h2 h3 => ?_,
    fun h1 h2 h3 h4 => isRevoked_index_error rl cs h1 h2 h3 h4,
    fun h1 h2 h3 h4 h5 => ?_⟩
  · unfold RevocationList2020.IsRevoked
    dsimp only [CredentialStatus.TypeDef, CredentialStatus.Coordinates]
    rw [if_pos h1]
  · unfold RevocationList2020.IsRevoked
    dsimp only [CredentialStatus.TypeDef, CredentialStatus.Coordinates]
    rw [if_neg (by rw [h1]; exact Bool.false_ne_true)]
    rw [if_pos h2]
  · unfold RevocationList2020.IsRevoked
    dsimp only [CredentialStatus.TypeDef, CredentialStatus.Coordinates]
    rw [if_neg (by rw [h1]; exact Bool.false_ne_true)]
    rw [if_neg (by rw [h2]; exact fun hc => hc rfl)]
    rw [if_pos h3]
  · unfold RevocationList2020.IsRevoked
    dsimp only [CredentialStatus.TypeDef, CredentialStatus.Coordinates]
    rw [if_neg (by rw [h1]; exact Bool.false_ne_true)]
    rw [if_neg (by rw [h2]; exact fun hc => hc rfl)]
    rw [if_neg (by rw [h3]; exact fun hc => hc rfl)]
    rw [if_neg (by omega)]

/-- Witness for `isRevoked_validation_order` on the one-byte registry
`⟨"r", "RL", "tok", [2]⟩` (capacity 8), one status pointer per branch. -/
theorem isRevoked_validation_order_w :
    (RevocationList2020.mk "r" "RL" "tok" [2]).IsRevoked
        (CredentialStatus.mk "" "x" 0 "y") =
      (.error "credential status ID is empty", RevocationList2020.mk "r" "RL" "tok" [2]) ∧
    (RevocationList2020.mk "r" "RL" "tok" [2]).IsRevoked
        (CredentialStatus.mk "s" "x" 0 "y") =
      (.error "unsupported type RL, expected RevocationList2020status",
        RevocationList2020.mk "r" "RL" "tok" [2]) ∧
    (RevocationList2020.mk "r" "RL" "tok" [2]).IsRevoked
        (CredentialStatus.mk "s" "RevocationList2020status" 0 "y") =
      (.error "wrong revocation list, expected r, got y",
        RevocationList2020.mk "r" "RL" "tok" [2]) ∧
    (RevocationList2020.mk "r" "RL" "tok" [2]).IsRevoked
        (CredentialStatus.mk "s" "RevocationList2020status" 99 "r") =
      (.error "credential index out of range 0-8: r",
        RevocationList2020.mk "r" "RL" "tok" [2]) ∧
    (RevocationList2020.mk "r" "RL" "tok" [2]).IsRevoked
        (CredentialStatus.mk "s" "RevocationList2020status" 1 "r") =
      (.ok true, RevocationList2020.mk "r" "RL" "tok" [2]) :=
  ⟨(isRevoked_validation_order _ _).1 (by decide),
   (isRevoked_validation_order _ _).2.1 (by decide) (by decide),
   (isRevoked_validation_order _ _).2.2.1 (by decide) (by decide) (by decide),
   (isRevoked_validation_order _ _).2.2.2.1 (by decide) (by decide) (by decide)
     (by decide),
   (isRevoked_validation_order _ _).2.2.2.2 (by decide) (by decide) (by decide)
     (by decide) (by decide)⟩

/-- A successful `Update` stores `pack` of the freshly mutated bitmap in
`EncodedList`. -/
theorem update_ok_consistent (rl : RevocationList2020) (action : Bool)
    (idxs : List Int) (st : RevocationList2020)
    (h : rl.Update action idxs = (none, st)) :
    st.EncodedList = packStr st.bitSet := by
  unfold RevocationList2020.Update at h
  split at h
  · simp at h
  · simp only [pack] at h
    rw [Prod.mk.injEq] at h
    rw [← h.2]

/-- C5 (confirmed): after every successful public operation
(`NewRevocationList`, `NewRevocationListFromJSON`, `Update`, `Revoke`,
`Reset`) the registry's `EncodedList` equals `pack` applied to its current
bitmap bytes: no externally observable registry state has the token and
the bitmap disagree. -/
theorem encodedList_matches_bitmap :
    (∀ id kb rl, NewRevocationList id kb = .ok rl →
      rl.EncodedList = packStr rl.bitSet) ∧
    (∀ d rl, NewRevocationListFromJSON d = .ok rl →
      rl.EncodedList = packStr rl.bitSet) ∧
    (∀ rl action idxs st, RevocationList2020.Update rl action idxs = (none, st) →
      st.EncodedList = packStr st.bitSet) ∧
    (∀ rl idxs st, RevocationList2020.Revoke rl idxs = (none, st) →
      st.EncodedList = packStr st.bitSet) ∧
    (∀ rl idxs st, RevocationList2020.Reset rl idxs = (none, st) →
      st.EncodedList = packStr st.bitSet) := by
  refine ⟨?_, ?_, update_ok_consistent, ?_, ?_⟩
  · intro id kb rl h
    unfold NewRevocationList at h
    split at h
    · simp at h
    · simp only [pack] at h
      rw [Except.ok.injEq] at h
      rw [← h]
  · intro d rl h
    exact (fromJSON_no_ok h).elim
  · intro rl idxs st h
    exact update_ok_consistent rl RevokeAction idxs st h
  · intro rl idxs st h
    exact update_ok_consistent rl ResetAction idxs st h

/-- Witness for `encodedList_matches_bitmap`: the fresh 16 KB registry and
an empty `Update` on a one-byte registry. -/
theorem encodedList_matches_bitmap_w :
    (NewRevocationList "x" 16 =
        .ok (RevocationList2020.mk "x" TypeRevocationList2020
          (packStr (newBitSet 16)) (newBitSet 16)) ∧
      (RevocationList2020.mk "x" TypeRevocationList2020
          (packStr (newBitSet 16)) (newBitSet 16)).EncodedList =
        packStr (RevocationList2020.mk "x" TypeRevocationList2020
          (packStr (newBitSet 16)) (newBitSet 16)).bitSet) ∧
    ((RevocationList2020.mk "r" "t" "e" [0]).Update true [] =
        (none, RevocationList2020.mk "r" "t" (packStr [0]) [0]) ∧
      (RevocationList2020.mk "r" "t" (packStr [0]) [0]).EncodedList =
        packStr (RevocationList2020.mk "r" "t" (packStr [0]) [0]).bitSet) :=
  ⟨⟨rfl, encodedList_matches_bitmap.1 "x" 16 _ rfl⟩,
   ⟨rfl, encodedList_matches_bitmap.2.2.1 (RevocationList2020.mk "r" "t" "e" [0])
     true [] (RevocationList2020.mk "r" "t" (packStr [0]) [0]) rfl⟩⟩

/-- C6 (confirmed): `NewRevocationList id kbSize` succeeds exactly when
16 ≤ kbSize ≤ 128, building an all-zero bitmap of `kbSize * 1024` bytes
with the token set by encoding it; outside the bounds it fails with the
range error naming the bounds 16 and 128 and the offending value. -/
theorem newRevocationList_range (id : String) (kbSize : Int) :
    (minBitSetSize ≤ kbSize → kbSize ≤ maxBitSetSize →
      NewRevocationList id kbSize =
        .ok ⟨id, TypeRevocationList2020, packStr (newBitSet kbSize.toNat),
          newBitSet kbSize.toNat⟩) ∧
    (kbSize < minBitSetSize ∨ maxBitSetSize < kbSize →
      NewRevocationList id kbSize =
        .error ("size must be between " ++ toString minBitSetSize ++ " and " ++
          toString maxBitSetSize ++ ", got " ++ toString kbSize)) := by
  constructor
  · intro hlo hhi
    unfold NewRevocationList
    rw [if_neg (by
      simp only [minBitSetSize, maxBitSetSize] at hlo hhi ⊢
      omega)]
    rfl
  · intro hbad
    unfold NewRevocationList
    rw [if_pos (by
      simp only [minBitSetSize, maxBitSetSize] at hbad ⊢
      omega)]

/-- Witness for `newRevocationList_range` at the boundary sizes 16, 128
(success) and 15, 129 (failure). -/
theorem newRevocationList_range_w :
    (minBitSetSize ≤ (16 : Int) ∧ (16 : Int) ≤ maxBitSetSize ∧
      NewRevocationList "x" 16 =
        .ok (RevocationList2020.mk "x" TypeRevocationList2020
          (packStr (newBitSet (16 : Int).toNat)) (newBitSet (16 : Int).toNat))) ∧
    (minBitSetSize ≤ (128 : Int) ∧ (128 : Int) ≤ maxBitSetSize ∧
      NewRevocationList "x" 128 =
        .ok (RevocationList2020.mk "x" TypeRevocationList2020
          (packStr (newBitSet (128 : Int).toNat)) (newBitSet (128 : Int).toNat))) ∧
    (((15 : Int) < minBitSetSize ∨ maxBitSetSize < (15 : Int)) ∧
      NewRevocationList "x" 15 = .error "size must be between 16 and 128, got 15") ∧
    (((129 : Int) < minBitSetSize ∨ maxBitSetSize < (129 : Int)) ∧
      NewRevocationList "x" 129 = .error "size must be between 16 and 128, got 129") :=
  ⟨⟨by decide, by decide, (newRevocationList_range "x" 16).1 (by decide) (by decide)⟩,
   ⟨by decide, by decide, (newRevocationList_range "x" 128).1 (by decide) (by decide)⟩,
   ⟨by decide, (newRevocationList_range "x" 15).2 (by decide)⟩,
   ⟨by decide, (newRevocationList_range "x" 129).2 (by decide)⟩⟩

/-- C7 (confirmed): every registry a public constructor returns has a
bitmap whose byte length is a multiple of 1024 and lies in
[16*1024, 128*1024]; and a document whose decoded token has a byte length
that is not a multiple of 1024 or is out of bounds is rejected.
(`NewRevocationListFromJSON` in fact rejects every document, because the
decoded token is always empty — see `unpack_ok_nil` — so its two parts
hold with room to spare.) -/
theorem registry_size_invariant :
    (∀ id kb rl, NewRevocationList id kb = .ok rl →
      rl.bitSet.length % 1024 = 0 ∧ 16 * 1024 ≤ rl.bitSet.length ∧
        rl.bitSet.length ≤ 128 * 1024) ∧
    (∀ d rl, NewRevocationListFromJSON d = .ok rl →
      rl.bitSet.length % 1024 = 0 ∧ 16 * 1024 ≤ rl.bitSet.length ∧
        rl.bitSet.length ≤ 128 * 1024) ∧
    (∀ d bs, unpack d.encodedList = .ok bs →
      (bs.length % 1024 ≠ 0 ∨ bs.length < 16 * 1024 ∨ 128 * 1024 < bs.length) →
      ∃ e, NewRevocationListFromJSON d = .error e) := by
  refine ⟨?_, ?_, ?_⟩
  · intro id kb rl h
    unfold NewRevocationList at h
    split at h
    · simp at h
    · rename_i hcond
      simp only [minBitSetSize, maxBitSetSize] at hcond
      simp only [pack] at h
      rw [Except.ok.injEq] at h
      rw [← h]
      dsimp only [newBitSet]
      rw [List.length_replicate]
      omega
  · intro d rl h
    exact (fromJSON_no_ok h).elim
  · intro d bs hu hbad
    cases hfj : NewRevocationListFromJSON d with
    | ok rl => exact (fromJSON_no_ok hfj).elim
    | error e => exact ⟨e, rfl⟩

/-- Witness for `registry_size_invariant`: the 16 KB registry for the
constructor part, and the document carrying the encoding of the empty
bitmap (decoded length 0: out of bounds) for the rejection part. -/
theorem registry_size_invariant_w :
    (NewRevocationList "x" 16 =
        .ok (RevocationList2020.mk "x" TypeRevocationList2020
          (packStr (newBitSet 16)) (newBitSet 16)) ∧
      ((RevocationList2020.mk "x" TypeRevocationList2020
          (packStr (newBitSet 16)) (newBitSet 16)).bitSet.length % 1024 = 0 ∧
        16 * 1024 ≤ (RevocationList2020.mk "x" TypeRevocationList2020
          (packStr (newBitSet 16)) (newBitSet 16)).bitSet.length ∧
        (RevocationList2020.mk "x" TypeRevocationList2020
          (packStr (newBitSet 16)) (newBitSet 16)).bitSet.length ≤ 128 * 1024)) ∧
    (unpack (RLDoc.mk "doc" "t" (packStr [])).encodedList = .ok [] ∧
      (([] : bitSet).length % 1024 ≠ 0 ∨ ([] : bitSet).length < 16 * 1024 ∨
        128 * 1024 < ([] : bitSet).length) ∧
      ∃ e, NewRevocationListFromJSON (RLDoc.mk "doc" "t" (packStr [])) = .error e) :=
  ⟨⟨rfl, registry_size_invariant.1 "x" 16 _ rfl⟩,
   ⟨unpack_packStr [] (by decide), by decide,
    registry_size_invariant.2.2 (RLDoc.mk "doc" "t" (packStr [])) []
      (unpack_packStr [] (by decide)) (by decide)⟩⟩

/-- C8 (confirmed): for an index `i` inside the bitmap, `setBit i v`
makes `getBit i` return `v` and leaves every other bit — same byte or
other bytes — unchanged; `getBit` reads exactly bit `i % 8` of byte
`i / 8`. -/
theorem getBit_setBit (bs : bitSet) (i : Nat) (v : Bool) (h : i < 8 * bs.length) :
    bitSet.getBit (bitSet.setBit bs i v) i = v ∧
    ∀ k, k ≠ i → bitSet.getBit (bitSet.setBit bs i v) k = bitSet.getBit bs k := by
  have hpos : i / 8 < bs.length := by omega
  have hj8 : i % 8 < 8 := Nat.mod_lt _ (by norm_num)
  have h255 : ∀ j < 8, Nat.testBit 255 j = true := by decide
  constructor
  · unfold bitSet.getBit bitSet.setBit
    dsimp only
    cases v with
    | true =>
      rw [if_pos rfl]
      have hget : ((bs.set (i / 8) (bs.getD (i / 8) 0 ||| 2 ^ (i % 8))).getD
          (i / 8) 0) = bs.getD (i / 8) 0 ||| 2 ^ (i % 8) := by
        simp [List.getD_eq_getElem?_getD, List.getElem?_set_self, hpos]
      rw [hget]
      simp [Nat.testBit_or, Nat.testBit_two_pow_self]
    | false =>
      rw [if_neg (by simp)]
      have hget : ((bs.set (i / 8) (bs.getD (i / 8) 0 &&& (255 ^^^ 2 ^ (i % 8)))).getD
          (i / 8) 0) = bs.getD (i / 8) 0 &&& (255 ^^^ 2 ^ (i % 8)) := by
        simp [List.getD_eq_getElem?_getD, List.getElem?_set_self, hpos]
      rw [hget]
      rw [show (255 : Nat) = 2 ^ 8 - 1 from rfl]
      simp [Nat.testBit_and, Nat.testBit_xor, Nat.testBit_two_pow_sub_one,
        Nat.testBit_two_pow_self, hj8, h255 _ hj8]
  · intro k hk
    unfold bitSet.getBit bitSet.setBit
    dsimp only
    by_cases hp : k / 8 = i / 8
    · have hjk : k % 8 ≠ i % 8 := by omega
      have hk8 : k % 8 < 8 := Nat.mod_lt _ (by norm_num)
      cases v with
      | true =>
        rw [if_pos rfl, hp]
        have hget : ((bs.set (i / 8) (bs.getD (i / 8) 0 ||| 2 ^ (i % 8))).getD
            (i / 8) 0) = bs.getD (i / 8) 0 ||| 2 ^ (i % 8) := by
          simp [List.getD_eq_getElem?_getD, List.getElem?_set_self, hpos]
        rw [hget]
        simp [Nat.testBit_or, Nat.testBit_two_pow_of_ne (fun hc => hjk hc.symm)]
      | false =>
        rw [if_neg (by simp), hp]
        have hget : ((bs.set (i / 8) (bs.getD (i / 8) 0 &&& (255 ^^^ 2 ^ (i % 8)))).getD
            (i / 8) 0) = bs.getD (i / 8) 0 &&& (255 ^^^ 2 ^ (i % 8)) := by
          simp [List.getD_eq_getElem?_getD, List.getElem?_set_self, hpos]
        rw [hget]
        rw [show (255 : Nat) = 2 ^ 8 - 1 from rfl]
        simp [Nat.testBit_and, Nat.testBit_xor, Nat.testBit_two_pow_sub_one,
          Nat.testBit_two_pow_of_ne (fun hc => hjk hc.symm), hk8, h255 _ hk8]
    · have hget : ∀ y, ((bs.set (i / 8) y).getD (k / 8) 0) = bs.getD (k / 8) 0 := by
        intro y
        simp [List.getD_eq_getElem?_getD, List.getElem?_set_ne (fun hc => hp hc.symm)]
      cases v with
      | true => rw [if_pos rfl, hget]
      | false => rw [if_neg (by simp), hget]

/-- Witness for `getBit_setBit` on the two-byte bitmap `[0, 0]` at bit 9. -/
theorem getBit_setBit_w :
    9 < 8 * ([0, 0] : bitSet).length ∧
    (bitSet.getBit (bitSet.setBit [0, 0] 9 true) 9 = true ∧
      ∀ k, k ≠ 9 → bitSet.getBit (bitSet.setBit [0, 0] 9 true) k =
        bitSet.getBit [0, 0] k) :=
  ⟨by decide, getBit_setBit [0, 0] 9 true (by decide)⟩

/-- C9 (code_bug): the out-of-range error of `IsRevoked` does NOT include
the offending index.  For the publicly constructed 16 KB registry "r" and
the status pointer `NewCredentialStatus "r" 200000` (index 200000, well
beyond the 131072-bit capacity), the error message interpolates the list
identifier "r" where the offending index belongs, and the string "200000"
does not occur in it — though the claim says every range error carries the
offending value. -/
theorem isRevoked_range_error_omits_index :
    NewRevocationList "r" 16 =
      .ok (RevocationList2020.mk "r" TypeRevocationList2020
        (packStr (newBitSet 16)) (newBitSet 16)) ∧
    (RevocationList2020.mk "r" TypeRevocationList2020
        (packStr (newBitSet 16)) (newBitSet 16)).IsRevoked
        (NewCredentialStatus "r" 200000) =
      (.error "credential index out of range 0-131072: r",
        RevocationList2020.mk "r" TypeRevocationList2020
          (packStr (newBitSet 16)) (newBitSet 16)) ∧
    strContains "credential index out of range 0-131072: r" "200000" = false := by
  have hcap : (RevocationList2020.mk "r" TypeRevocationList2020
      (packStr (newBitSet 16)) (newBitSet 16)).Capacity = 131072 := by
    rw [show (RevocationList2020.mk "r" TypeRevocationList2020
      (packStr (newBitSet 16)) (newBitSet 16)).Capacity =
        bitSet.len (newBitSet 16) from rfl]
    rw [bitSet.len, newBitSet, List.length_replicate]
  refine ⟨rfl, ?_, by decide⟩
  have h := isRevoked_index_error
    (RevocationList2020.mk "r" TypeRevocationList2020
      (packStr (newBitSet 16)) (newBitSet 16))
    (NewCredentialStatus "r" 200000)
    (by decide) rfl rfl (by rw [hcap]; decide)
  rw [h, hcap]
  rfl
